import Mathlib

/-!
Shallow embedding of the candidate assembly and winnowing code in
compiler/rustc_trait_selection/src/solve/assembly.rs.

Types are collapsed to the structure the assembly code inspects: payloads
that assembly.rs never looks at (ADT definitions, substitutions, regions,
...) are replaced by opaque identifiers (Nat), and external collaborators
(the implementation index, the recursive goal evaluator, the lang-item
table, the consider callbacks of the GoalKind trait) are fields of the
EvalCtxt record, quantified over in every theorem.
-/

namespace Assembly

/-- Certainty causes, from rustc_middle: Ambiguity or Overflow. -/
inductive MaybeCause where
  | Ambiguity
  | Overflow
deriving DecidableEq

/-- Certainty of a canonical response: Yes (proven) or Maybe (with a cause). -/
inductive Certainty where
  | Yes
  | Maybe (cause : MaybeCause)
deriving DecidableEq

/-- Certainty::AMBIGUOUS is Maybe(Ambiguity). -/
def Certainty.AMBIGUOUS : Certainty := Certainty.Maybe MaybeCause.Ambiguity

/-- A canonical response: its certainty plus the residual constraints needed
to use it.  Constraints are collapsed to opaque identifiers: the assembly
code never inspects them, only compares responses for equality. -/
structure Response where
  certainty : Certainty
  constraints : List Nat
deriving DecidableEq

/-- Modelled from the spec: evaluate_added_goals_and_make_canonical_response
lives outside this file's source (eval_ctxt.rs).  At the call sites embedded
here the spec states its result: a synthetic response carrying the given
certainty and no extra constraints ("produce a synthetic response carrying
the merged certainty and no extra constraints"; "a neutral Ambiguous
response carrying no constraints" — assembly happens inside a probe, so the
canonical response made at these points has no constraints). -/
def mkCanonicalResponse (certainty : Certainty) : Response :=
  { certainty := certainty, constraints := [] }

/-- Possible ways a goal can be proven (assembly.rs, enum CandidateSource). -/
inductive CandidateSource where
  | Impl (def_id : Nat)
  | BuiltinImpl
  | ParamEnv (n : Nat)
  | AliasBound
deriving DecidableEq

/-- A candidate: a possible way to prove a goal (assembly.rs, struct Candidate). -/
structure Candidate where
  source : CandidateSource
  result : Response
deriving DecidableEq

/-- The NoSolution error: the single ordinary error of the solver. -/
inductive NoSolution where
  | noSolution
deriving DecidableEq

/-- QueryResult = Result of CanonicalResponse and NoSolution. -/
abbrev QueryResult := Except NoSolution Response

/-- Infer-variable kinds the assembly code distinguishes. -/
inductive InferTy where
  | TyVar
  | IntVar
  | FloatVar
  | FreshTy
  | FreshIntTy
  | FreshFloatTy
deriving DecidableEq

/-- Alias kinds: a projection or an opaque type. -/
inductive AliasKind where
  | Projection
  | Opaque
deriving DecidableEq

/-- An alias type: the defining item and its substitutions (opaque ids). -/
structure AliasTy where
  def_id : Nat
  substs : Nat
deriving DecidableEq

/-- The type-shape tags the assembly code matches on (ty::TyKind).  Payloads
that the assembly code never inspects are dropped; a Dynamic type keeps its
declared bound set (as opaque predicate ids) and an Alias keeps its kind and
AliasTy, because assembly.rs reads exactly those. -/
inductive Ty where
  | Bool
  | Char
  | Int
  | Uint
  | Float
  | Adt
  | Foreign
  | Str
  | Array
  | Slice
  | RawPtr
  | Ref
  | FnDef
  | FnPtr
  | Dynamic (bounds : List Nat)
  | Closure
  | Generator
  | GeneratorWitness
  | GeneratorWitnessMIR
  | Never
  | Tuple
  | Param
  | Placeholder
  | Infer (v : InferTy)
  | Error
  | Bound
  | Alias (kind : AliasKind) (alias_ty : AliasTy)
deriving DecidableEq

/-- Ty::is_ty_var: an unresolved general inference variable. -/
def tyIsTyVar : Ty → Bool
  | Ty.Infer InferTy.TyVar => true
  | _ => false

/-- An opaque predicate (an assumption / clause); assembly.rs only hands
these to external consider callbacks. -/
abbrev Predicate := Nat

/-- A goal: self type, capability (trait) identity and the environment of
caller bounds.  goal.predicate.self_ty() is the selfTy field,
goal.predicate.trait_def_id(tcx) the traitDefId field, and
goal.param_env.caller_bounds() the paramEnv field. -/
structure Goal where
  selfTy : Ty
  traitDefId : Nat
  paramEnv : List Predicate
deriving DecidableEq

/-- predicate.with_self_ty: the same goal with the self type replaced. -/
def Goal.withSelfTy (goal : Goal) (ty : Ty) : Goal :=
  { goal with selfTy := ty }

/-- Impl polarity (rustc_middle): positive, negative or reservation. -/
inductive ImplPolarity where
  | Positive
  | Negative
  | Reservation
deriving DecidableEq

/-- Closure kinds for the Fn-family dispatch. -/
inductive ClosureKind where
  | Fn
  | FnMut
  | FnOnce
deriving DecidableEq

/-- The evaluation context.  Everything assembly.rs consumes from outside —
the lang-item table, the impl index, the GoalKind consider callbacks, the
recursive normalizes-to evaluation run inside a probe, item_bounds and
predicate elaboration — is an opaque field here; theorems quantify over it. -/
structure EvalCtxt where
  implPolarity : Nat → ImplPolarity
  /-- Result of the probe in assemble_candidates_after_normalizing_self_ty:
  some normalized type if the added normalizes-to goal evaluates Ok, none on
  failure. -/
  normalizeProjection : Goal → AliasTy → Option Ty
  /-- for_each_relevant_impl_treating_projections with NextSolverLookup. -/
  relevantImpls : Goal → List Nat
  considerImpl : Goal → Nat → QueryResult
  traitIsAuto : Nat → Bool
  traitIsAlias : Nat → Bool
  sizedTrait : Option Nat
  copyTrait : Option Nat
  cloneTrait : Option Nat
  pointerLike : Option Nat
  fnTraitKind : Nat → Option ClosureKind
  tupleTrait : Option Nat
  pointeeTrait : Option Nat
  futureTrait : Option Nat
  genTrait : Option Nat
  unsizeTrait : Option Nat
  discriminantKindTrait : Option Nat
  considerAutoTrait : Goal → QueryResult
  considerTraitAlias : Goal → QueryResult
  considerBuiltinSized : Goal → QueryResult
  considerBuiltinCopyClone : Goal → QueryResult
  considerBuiltinPointerLike : Goal → QueryResult
  considerBuiltinFnTrait : Goal → ClosureKind → QueryResult
  considerBuiltinTuple : Goal → QueryResult
  considerBuiltinPointee : Goal → QueryResult
  considerBuiltinFuture : Goal → QueryResult
  considerBuiltinGenerator : Goal → QueryResult
  considerBuiltinUnsize : Goal → QueryResult
  considerBuiltinDynUpcastCandidates : Goal → List Response
  considerBuiltinDiscriminantKind : Goal → QueryResult
  /-- consider_implied_clause with an empty requirements iterator (the only
  form assembly.rs uses for param-env and alias-bound candidates). -/
  considerImpliedClause : Goal → Predicate → QueryResult
  considerObjectBound : Goal → Predicate → QueryResult
  /-- tcx.item_bounds(def_id).subst(tcx, substs). -/
  itemBounds : Nat → Nat → List Predicate
  /-- elaborate_predicates over the object bounds, each given the self type. -/
  elaborateObjectBounds : Ty → List Nat → List Predicate

/-- assembly.rs lines 532-546, discard_reservation_impl: if the candidate is
a user impl with reservation polarity, replace its response by a fresh
canonical Ambiguous response (which, made inside the assembly probe, carries
no constraints); otherwise return the candidate untouched. -/
def discard_reservation_impl (ctx : EvalCtxt) (candidate : Candidate) : Candidate :=
  match candidate.source with
  | CandidateSource.Impl def_id =>
    match ctx.implPolarity def_id with
    | ImplPolarity.Reservation =>
      { candidate with result := mkCanonicalResponse Certainty.AMBIGUOUS }
    | _ => candidate
  | _ => candidate

/-- assembly.rs lines 518-530: the pairwise domination predicate of the
winnowing loop.  Every arm of its match returns false (the function body is
a FIXME stub). -/
def trait_candidate_should_be_dropped_in_favor_of
    (candidate : Candidate) (other : Candidate) : Bool :=
  match candidate.source, other.source with
  | CandidateSource.Impl _, _ => false
  | CandidateSource.ParamEnv _, _ => false
  | CandidateSource.AliasBound, _ => false
  | CandidateSource.BuiltinImpl, _ => false

/-- A throwaway candidate used only as the default of List.getD below; the
loop guard keeps every index in bounds, so it is never read. -/
def dummyCandidate : Candidate :=
  { source := CandidateSource.BuiltinImpl
    result := mkCanonicalResponse Certainty.AMBIGUOUS }

/-- Vec::swap_remove(i): replace the element at i by the last element and
shrink the vector by one. -/
def swapRemove (l : List Candidate) (i : Nat) : List Candidate :=
  match l.getLast? with
  | none => l
  | some last => (l.set i last).dropLast

/-- The inner for-loop of the winnowing pass: is there a j distinct from i
with candidates[i] dropped in favor of candidates[j]? -/
def hasDominator (cands : List Candidate) (i : Nat) : Bool :=
  (List.range cands.length).any fun j =>
    (i != j) && trait_candidate_should_be_dropped_in_favor_of
      (cands.getD i dummyCandidate) (cands.getD j dummyCandidate)

/-- assembly.rs lines 483-498, the outer while-loop of the winnowing pass.
The fuel argument only bounds the iteration count (each iteration either
removes a candidate or advances i, so 2 * length iterations always suffice);
it exists to keep the recursion structural. -/
def pruneLoop (cands : List Candidate) (i : Nat) (fuel : Nat) : List Candidate :=
  match fuel with
  | 0 => cands
  | fuel' + 1 =>
    if i < cands.length then
      if hasDominator cands i then
        pruneLoop (swapRemove cands i) i fuel'
      else
        pruneLoop cands (i + 1) fuel'
    else
      cands

/-- itertools all_equal over the responses of the candidate list. -/
def allEqual (l : List Response) : Bool :=
  match l with
  | [] => true
  | x :: xs => xs.all fun y => y == x

/-- assembly.rs lines 472-516, merge_candidates_and_discard_reservation_impls:
0 candidates fail with NoSolution; 1 candidate is popped, downgraded and
returned; otherwise the winnowing loop runs, then if more than one candidate
remains with differing responses a synthetic response is returned whose
certainty is Overflow when every remaining certainty is Overflow and
Ambiguous otherwise; else the last candidate is popped, downgraded and its
response returned.  (Vec::pop takes the last element.) -/
def merge_candidates_and_discard_reservation_impls
    (ctx : EvalCtxt) (candidates : List Candidate) : QueryResult :=
  match candidates with
  | [] => Except.error NoSolution.noSolution
  | [c] => Except.ok (discard_reservation_impl ctx c).result
  | c1 :: c2 :: rest =>
    let cands := pruneLoop (c1 :: c2 :: rest) 0 (2 * (c1 :: c2 :: rest).length)
    if 1 < cands.length && !(allEqual (cands.map Candidate.result)) then
      let certainty :=
        if cands.all (fun x => x.result.certainty == Certainty.Maybe MaybeCause.Overflow) then
          Certainty.Maybe MaybeCause.Overflow
        else
          Certainty.AMBIGUOUS
      Except.ok (mkCanonicalResponse certainty)
    else
      match cands.getLast? with
      | some c => Except.ok (discard_reservation_impl ctx c).result
      | none => Except.error NoSolution.noSolution

/-- The outcome of a candidate-assembly function: a candidate list, or the
fatal abort raised by the bug macro when a disallowed type shape reaches
structural dispatch.  The fatal outcome is a distinct constructor, never an
ordinary empty-or-error result. -/
inductive AssemblyResult where
  | ok (candidates : List Candidate)
  | fatal
deriving DecidableEq

/-- Sequencing for AssemblyResult: a fatal abort propagates. -/
def AssemblyResult.bindCands
    (r : AssemblyResult) (f : List Candidate → AssemblyResult) : AssemblyResult :=
  match r with
  | AssemblyResult.ok l => f l
  | AssemblyResult.fatal => AssemblyResult.fatal

/-- assembly.rs lines 288-304, assemble_impl_candidates: every impl the
index offers whose consider check succeeds becomes an Impl-source candidate;
a NoSolution from the check silently contributes nothing. -/
def assemble_impl_candidates (ctx : EvalCtxt) (goal : Goal) : List Candidate :=
  (ctx.relevantImpls goal).filterMap fun impl_def_id =>
    match ctx.considerImpl goal impl_def_id with
    | Except.ok result => some { source := CandidateSource.Impl impl_def_id, result := result }
    | Except.error _ => none

/-- assembly.rs lines 313-341: the if-else dispatch selecting the single
built-in rule by trait identity (auto, alias, then the lang-item roles in
source order), or NoSolution if none applies. -/
def builtinDispatch (ctx : EvalCtxt) (goal : Goal) : QueryResult :=
  let trait_def_id := goal.traitDefId
  if ctx.traitIsAuto trait_def_id then
    ctx.considerAutoTrait goal
  else if ctx.traitIsAlias trait_def_id then
    ctx.considerTraitAlias goal
  else if ctx.sizedTrait = some trait_def_id then
    ctx.considerBuiltinSized goal
  else if ctx.copyTrait = some trait_def_id ∨ ctx.cloneTrait = some trait_def_id then
    ctx.considerBuiltinCopyClone goal
  else if ctx.pointerLike = some trait_def_id then
    ctx.considerBuiltinPointerLike goal
  else
    match ctx.fnTraitKind trait_def_id with
    | some kind => ctx.considerBuiltinFnTrait goal kind
    | none =>
      if ctx.tupleTrait = some trait_def_id then
        ctx.considerBuiltinTuple goal
      else if ctx.pointeeTrait = some trait_def_id then
        ctx.considerBuiltinPointee goal
      else if ctx.futureTrait = some trait_def_id then
        ctx.considerBuiltinFuture goal
      else if ctx.genTrait = some trait_def_id then
        ctx.considerBuiltinGenerator goal
      else if ctx.unsizeTrait = some trait_def_id then
        ctx.considerBuiltinUnsize goal
      else if ctx.discriminantKindTrait = some trait_def_id then
        ctx.considerBuiltinDiscriminantKind goal
      else
        Except.error NoSolution.noSolution

/-- assembly.rs lines 306-357, assemble_builtin_impl_candidates: push the
dispatched rule's result as a BuiltinImpl candidate when it succeeds, then,
independently and only for the unsize trait, push one BuiltinImpl candidate
per dyn-upcast response. -/
def assemble_builtin_impl_candidates (ctx : EvalCtxt) (goal : Goal) : List Candidate :=
  (match builtinDispatch ctx goal with
   | Except.ok result => [{ source := CandidateSource.BuiltinImpl, result := result }]
   | Except.error _ => []) ++
  (if ctx.unsizeTrait = some goal.traitDefId then
    (ctx.considerBuiltinDynUpcastCandidates goal).map fun result =>
      { source := CandidateSource.BuiltinImpl, result := result }
  else
    [])

/-- assembly.rs lines 359-372, assemble_param_env_candidates: each caller
bound, in index order, whose implied-clause check succeeds becomes a
ParamEnv(i) candidate. -/
def assemble_param_env_candidates (ctx : EvalCtxt) (goal : Goal) : List Candidate :=
  goal.paramEnv.enum.filterMap fun p =>
    match ctx.considerImpliedClause goal p.2 with
    | Except.ok result => some { source := CandidateSource.ParamEnv p.1, result := result }
    | Except.error _ => none

/-- assembly.rs lines 374-419, assemble_alias_bound_candidates: a no-op for
every structural shape, a fatal bug for a general inference variable, a
fresh marker or a bound variable, and for an alias self type one AliasBound
candidate per succeeding item bound. -/
def assemble_alias_bound_candidates (ctx : EvalCtxt) (goal : Goal) : AssemblyResult :=
  match goal.selfTy with
  | Ty.Bool | Ty.Char | Ty.Int | Ty.Uint | Ty.Float
  | Ty.Adt | Ty.Foreign | Ty.Str
  | Ty.Array | Ty.Slice | Ty.RawPtr | Ty.Ref
  | Ty.FnDef | Ty.FnPtr | Ty.Dynamic _
  | Ty.Closure | Ty.Generator | Ty.GeneratorWitness | Ty.GeneratorWitnessMIR
  | Ty.Never | Ty.Tuple | Ty.Param | Ty.Placeholder
  | Ty.Infer InferTy.IntVar | Ty.Infer InferTy.FloatVar
  | Ty.Error => AssemblyResult.ok []
  | Ty.Infer InferTy.TyVar | Ty.Infer InferTy.FreshTy
  | Ty.Infer InferTy.FreshIntTy | Ty.Infer InferTy.FreshFloatTy
  | Ty.Bound => AssemblyResult.fatal
  | Ty.Alias _ alias_ty =>
    AssemblyResult.ok
      ((ctx.itemBounds alias_ty.def_id alias_ty.substs).filterMap fun assumption =>
        match ctx.considerImpliedClause goal assumption with
        | Except.ok result => some { source := CandidateSource.AliasBound, result := result }
        | Except.error _ => none)

/-- assembly.rs lines 421-469, assemble_object_bound_candidates: a no-op for
every non-dynamic shape (aliases included), a fatal bug for a general
inference variable, a fresh marker or a bound variable, and for a dynamic
self type one BuiltinImpl candidate per succeeding elaborated object bound. -/
def assemble_object_bound_candidates (ctx : EvalCtxt) (goal : Goal) : AssemblyResult :=
  match goal.selfTy with
  | Ty.Bool | Ty.Char | Ty.Int | Ty.Uint | Ty.Float
  | Ty.Adt | Ty.Foreign | Ty.Str
  | Ty.Array | Ty.Slice | Ty.RawPtr | Ty.Ref
  | Ty.FnDef | Ty.FnPtr | Ty.Alias _ _
  | Ty.Closure | Ty.Generator | Ty.GeneratorWitness | Ty.GeneratorWitnessMIR
  | Ty.Never | Ty.Tuple | Ty.Param | Ty.Placeholder
  | Ty.Infer InferTy.IntVar | Ty.Infer InferTy.FloatVar
  | Ty.Error => AssemblyResult.ok []
  | Ty.Infer InferTy.TyVar | Ty.Infer InferTy.FreshTy
  | Ty.Infer InferTy.FreshIntTy | Ty.Infer InferTy.FreshFloatTy
  | Ty.Bound => AssemblyResult.fatal
  | Ty.Dynamic bounds =>
    AssemblyResult.ok
      ((ctx.elaborateObjectBounds goal.selfTy bounds).filterMap fun assumption =>
        match ctx.considerObjectBound goal assumption with
        | Except.ok result => some { source := CandidateSource.BuiltinImpl, result := result }
        | Except.error _ => none)

/-- assembly.rs lines 256-286, assemble_candidates_after_normalizing_self_ty:
only a projection-shaped alias self type triggers the pre-pass; inside a
probe the normalizes-to goal is evaluated and, on success, the entire
candidate generation is re-run (the recurse argument) for the goal with the
normalized self type; on failure the pre-pass contributes nothing. -/
def assemble_candidates_after_normalizing_self_ty (ctx : EvalCtxt)
    (recurse : Goal → AssemblyResult) (goal : Goal) : AssemblyResult :=
  match goal.selfTy with
  | Ty.Alias AliasKind.Projection projection_ty =>
    match ctx.normalizeProjection goal projection_ty with
    | some normalized_ty => recurse (goal.withSelfTy normalized_ty)
    | none => AssemblyResult.ok []
  | _ => AssemblyResult.ok []

/-- The body of assemble_and_evaluate_candidates (assembly.rs lines 215-248)
with the recursive call of the normalization pre-pass abstracted: the ty-var
short-circuit, then the six sources in source order, concatenated. -/
def assembleStep (ctx : EvalCtxt) (recurse : Goal → AssemblyResult) (goal : Goal) :
    AssemblyResult :=
  if tyIsTyVar goal.selfTy then
    AssemblyResult.ok
      [{ source := CandidateSource.BuiltinImpl
         result := mkCanonicalResponse Certainty.AMBIGUOUS }]
  else
    (assemble_candidates_after_normalizing_self_ty ctx recurse goal).bindCands fun preCands =>
    (assemble_alias_bound_candidates ctx goal).bindCands fun aliasCands =>
    (assemble_object_bound_candidates ctx goal).bindCands fun objectCands =>
    AssemblyResult.ok
      (preCands ++ assemble_impl_candidates ctx goal
        ++ assemble_builtin_impl_candidates ctx goal
        ++ assemble_param_env_candidates ctx goal
        ++ aliasCands ++ objectCands)

/-- assembly.rs lines 215-248, assemble_and_evaluate_candidates.  The fuel
argument is the recursion budget of the normalization pre-pass; the budget
is owned outside this file (spec section 5) and every theorem below supplies
enough of it, so the budget-exhausted pre-pass simply contributes nothing. -/
def assemble_and_evaluate_candidates (ctx : EvalCtxt) (fuel : Nat) : Goal → AssemblyResult :=
  match fuel with
  | 0 => assembleStep ctx fun _ => AssemblyResult.ok []
  | fuel' + 1 => assembleStep ctx (assemble_and_evaluate_candidates ctx fuel')

/-- A concrete evaluation context in which every external collaborator is
inert: no impls, no lang items, every consider check fails with NoSolution,
every polarity positive.  Used to instantiate universally quantified
theorems at concrete inputs. -/
def trivialCtx : EvalCtxt where
  implPolarity := fun _ => ImplPolarity.Positive
  normalizeProjection := fun _ _ => none
  relevantImpls := fun _ => []
  considerImpl := fun _ _ => Except.error NoSolution.noSolution
  traitIsAuto := fun _ => false
  traitIsAlias := fun _ => false
  sizedTrait := none
  copyTrait := none
  cloneTrait := none
  pointerLike := none
  fnTraitKind := fun _ => none
  tupleTrait := none
  pointeeTrait := none
  futureTrait := none
  genTrait := none
  unsizeTrait := none
  discriminantKindTrait := none
  considerAutoTrait := fun _ => Except.error NoSolution.noSolution
  considerTraitAlias := fun _ => Except.error NoSolution.noSolution
  considerBuiltinSized := fun _ => Except.error NoSolution.noSolution
  considerBuiltinCopyClone := fun _ => Except.error NoSolution.noSolution
  considerBuiltinPointerLike := fun _ => Except.error NoSolution.noSolution
  considerBuiltinFnTrait := fun _ _ => Except.error NoSolution.noSolution
  considerBuiltinTuple := fun _ => Except.error NoSolution.noSolution
  considerBuiltinPointee := fun _ => Except.error NoSolution.noSolution
  considerBuiltinFuture := fun _ => Except.error NoSolution.noSolution
  considerBuiltinGenerator := fun _ => Except.error NoSolution.noSolution
  considerBuiltinUnsize := fun _ => Except.error NoSolution.noSolution
  considerBuiltinDynUpcastCandidates := fun _ => []
  considerBuiltinDiscriminantKind := fun _ => Except.error NoSolution.noSolution
  considerImpliedClause := fun _ _ => Except.error NoSolution.noSolution
  considerObjectBound := fun _ _ => Except.error NoSolution.noSolution
  itemBounds := fun _ _ => []
  elaborateObjectBounds := fun _ _ => []

/-- A context in which every user impl has reservation polarity. -/
def reservationCtx : EvalCtxt :=
  { trivialCtx with implPolarity := fun _ => ImplPolarity.Reservation }

/-- A context whose normalization pre-pass always succeeds with Bool. -/
def normalizingCtx : EvalCtxt :=
  { trivialCtx with normalizeProjection := fun _ _ => some Ty.Bool }

/-- A goal whose self type is a projection alias. -/
def aliasGoal : Goal :=
  { selfTy := Ty.Alias AliasKind.Projection { def_id := 0, substs := 0 }
    traitDefId := 0
    paramEnv := [] }

/-- A goal whose self type is an unresolved general inference variable. -/
def tyVarGoal : Goal :=
  { selfTy := Ty.Infer InferTy.TyVar, traitDefId := 0, paramEnv := [] }

/-- A goal whose self type is the primitive Bool. -/
def boolGoal : Goal :=
  { selfTy := Ty.Bool, traitDefId := 0, paramEnv := [] }

/-- The non-alias, non-object structural shapes: primitive, algebraic,
array, slice, tuple, pointer/reference, function, closure, generator. -/
def isStructuralShape : Ty → Bool
  | Ty.Bool | Ty.Char | Ty.Int | Ty.Uint | Ty.Float | Ty.Str | Ty.Never
  | Ty.Adt | Ty.Foreign | Ty.Array | Ty.Slice | Ty.Tuple
  | Ty.RawPtr | Ty.Ref | Ty.FnDef | Ty.FnPtr
  | Ty.Closure | Ty.Generator | Ty.GeneratorWitness | Ty.GeneratorWitnessMIR => true
  | _ => false

/-- The internal-only forms that must never reach structural dispatch: a
bound variable, a general inference variable, or a fresh inference marker. -/
def isDisallowedShape : Ty → Bool
  | Ty.Bound => true
  | Ty.Infer InferTy.TyVar => true
  | Ty.Infer InferTy.FreshTy => true
  | Ty.Infer InferTy.FreshIntTy => true
  | Ty.Infer InferTy.FreshFloatTy => true
  | _ => false

/-- A proven response with no constraints, for concrete instantiations. -/
def respYes : Response := { certainty := Certainty.Yes, constraints := [] }

/-- An Overflow response with no constraints, for concrete instantiations. -/
def respOverflow : Response :=
  { certainty := Certainty.Maybe MaybeCause.Overflow, constraints := [] }

/-- Helper: every arm of the domination predicate returns false. -/
theorem should_drop_eq_false (candidate other : Candidate) :
    trait_candidate_should_be_dropped_in_favor_of candidate other = false := by
  obtain ⟨src, res⟩ := candidate
  cases src <;> rfl

/-- Helper: the inner for-loop of the winnowing pass never finds a dominator. -/
theorem hasDominator_eq_false (cands : List Candidate) (i : Nat) :
    hasDominator cands i = false := by
  simp [hasDominator, should_drop_eq_false]

/-- Helper: the winnowing loop returns its input unchanged, for any fuel and
any starting index. -/
theorem pruneLoop_id (fuel : Nat) :
    ∀ (cands : List Candidate) (i : Nat), pruneLoop cands i fuel = cands := by
  induction fuel with
  | zero => intro cands i; rfl
  | succ fuel' ih =>
    intro cands i
    unfold pruneLoop
    rw [hasDominator_eq_false]
    simp [ih]

/-- Helper: allEqual tests exactly pairwise equality of all elements. -/
theorem allEqual_eq_true_iff (l : List Response) :
    allEqual l = true ↔ ∀ r ∈ l, ∀ s ∈ l, r = s := by
  cases l with
  | nil => simp [allEqual]
  | cons x xs =>
    simp only [allEqual, List.all_eq_true, beq_iff_eq, List.mem_cons]
    constructor
    · intro h r hr s hs
      rcases hr with rfl | hr
      · rcases hs with rfl | hs
        · rfl
        · exact (h s hs).symm
      · rcases hs with rfl | hs
        · exact h r hr
        · exact (h r hr).trans (h s hs).symm
    · intro h y hy
      exact h y (Or.inr hy) x (Or.inl rfl)

/-- Helper: when every candidate carries the response r, allEqual over the
mapped responses holds. -/
theorem allEqual_map_of_const {cands : List Candidate} {r : Response}
    (h : ∀ c ∈ cands, c.result = r) :
    allEqual (cands.map Candidate.result) = true := by
  rw [allEqual_eq_true_iff]
  intro a ha b hb
  simp only [List.mem_map] at ha hb
  obtain ⟨c, hc, rfl⟩ := ha
  obtain ⟨d, hd, rfl⟩ := hb
  rw [h c hc, h d hd]

/-- Helper: when all (post-pruning) responses agree, the merge pops the last
candidate, downgrades it and returns its response. -/
theorem merge_of_allEqual (ctx : EvalCtxt) (cands : List Candidate)
    (hne : cands ≠ []) (heq : allEqual (cands.map Candidate.result) = true) :
    merge_candidates_and_discard_reservation_impls ctx cands =
      Except.ok (discard_reservation_impl ctx (cands.getLast hne)).result := by
  cases cands with
  | nil => exact absurd rfl hne
  | cons c1 tail =>
    cases tail with
    | nil => rfl
    | cons c2 rest =>
      simp only [merge_candidates_and_discard_reservation_impls]
      rw [pruneLoop_id, heq]
      simp only [Bool.not_true, Bool.and_false, if_false, Bool.false_eq_true]
      rw [List.getLast?_eq_getLast_of_ne_nil
        (show c1 :: c2 :: rest ≠ ([] : List Candidate) by simp)]

/-- Helper: the reservation downgrade is the identity on any candidate that
is not a reservation-polarity user impl. -/
theorem discard_reservation_noop (ctx : EvalCtxt) (c : Candidate)
    (h : ∀ d, c.source = CandidateSource.Impl d →
      ctx.implPolarity d ≠ ImplPolarity.Reservation) :
    discard_reservation_impl ctx c = c := by
  obtain ⟨src, res⟩ := c
  cases src with
  | Impl d =>
    cases hp : ctx.implPolarity d with
    | Reservation => exact absurd hp (h d rfl)
    | Positive => simp [discard_reservation_impl, hp]
    | Negative => simp [discard_reservation_impl, hp]
  | BuiltinImpl => rfl
  | ParamEnv n => rfl
  | AliasBound => rfl

/-- Claim C4: the merge engine applied to an empty candidate list fails with
the NoSolution error, and applied to a singleton list it returns exactly the
result of applying the reservation downgrade to that candidate. -/
theorem merge_empty_and_singleton (ctx : EvalCtxt) :
    merge_candidates_and_discard_reservation_impls ctx [] =
      Except.error NoSolution.noSolution ∧
    ∀ c : Candidate,
      merge_candidates_and_discard_reservation_impls ctx [c] =
        Except.ok (discard_reservation_impl ctx c).result :=
  ⟨rfl, fun _ => rfl⟩

/-- Claim C7: the pairwise domination predicate of the winnowing loop
returns false on every pair of candidates, so the pruning loop leaves every
candidate list exactly as assembled, for any starting index and any fuel. -/
theorem winnowing_never_drops :
    (∀ candidate other : Candidate,
      trait_candidate_should_be_dropped_in_favor_of candidate other = false) ∧
    ∀ (cands : List Candidate) (i fuel : Nat), pruneLoop cands i fuel = cands :=
  ⟨should_drop_eq_false, fun cands i fuel => pruneLoop_id fuel cands i⟩

/-- Claim C5: when all candidates carry one identical response r, the merge
returns that response after applying the reservation downgrade to the
selected (last-popped) candidate — in particular exactly r whenever that
candidate is not a reservation impl — regardless of how many candidates
there are: merging is idempotent under duplication of a candidate. -/
theorem merge_shared_response (ctx : EvalCtxt) (cands : List Candidate)
    (r : Response) (hne : cands ≠ []) (hall : ∀ c ∈ cands, c.result = r) :
    merge_candidates_and_discard_reservation_impls ctx cands =
      Except.ok (discard_reservation_impl ctx (cands.getLast hne)).result ∧
    ((∀ d, (cands.getLast hne).source = CandidateSource.Impl d →
        ctx.implPolarity d ≠ ImplPolarity.Reservation) →
      merge_candidates_and_discard_reservation_impls ctx cands = Except.ok r) ∧
    ∀ (c : Candidate) (n : Nat),
      merge_candidates_and_discard_reservation_impls ctx (c :: List.replicate n c) =
        merge_candidates_and_discard_reservation_impls ctx [c] := by
  refine ⟨merge_of_allEqual ctx cands hne (allEqual_map_of_const hall), ?_, ?_⟩
  · intro hnores
    rw [merge_of_allEqual ctx cands hne (allEqual_map_of_const hall),
      discard_reservation_noop ctx _ hnores,
      hall (cands.getLast hne) (List.getLast_mem hne)]
  · intro c n
    have hne' : c :: List.replicate n c ≠ ([] : List Candidate) := by simp
    have hall' : ∀ x ∈ c :: List.replicate n c, x.result = c.result := by
      intro x hx
      rcases List.mem_cons.mp hx with rfl | hx
      · rfl
      · rw [List.eq_of_mem_replicate hx]
    have hlast : (c :: List.replicate n c).getLast hne' = c := by
      rcases List.mem_cons.mp (List.getLast_mem hne') with h | h
      · exact h
      · exact List.eq_of_mem_replicate h
    rw [merge_of_allEqual ctx _ hne' (allEqual_map_of_const hall'), hlast]
    rfl

/-- Claim C5 witness: three copies of one BuiltinImpl candidate merge to the
shared proven response. -/
theorem merge_shared_response_witness :
    merge_candidates_and_discard_reservation_impls trivialCtx
      [{ source := CandidateSource.BuiltinImpl, result := respYes },
       { source := CandidateSource.BuiltinImpl, result := respYes },
       { source := CandidateSource.BuiltinImpl, result := respYes }] =
      Except.ok respYes := by
  have h := merge_shared_response trivialCtx
    [{ source := CandidateSource.BuiltinImpl, result := respYes },
     { source := CandidateSource.BuiltinImpl, result := respYes },
     { source := CandidateSource.BuiltinImpl, result := respYes }]
    respYes (by decide) (by decide)
  exact h.2.1 fun d hd => CandidateSource.noConfusion hd

/-- Claim C2: with at least two candidates whose responses are not all
identical (the winnowing loop removes nothing), the merge returns a
synthetic constraint-free response whose certainty is Overflow when every
candidate's certainty is Overflow and Ambiguous otherwise; the two outcomes
are distinct and their trigger conditions mutually exclusive. -/
theorem merge_differing_responses (ctx : EvalCtxt) (cands : List Candidate)
    (hlen : 2 ≤ cands.length)
    (hdiff : ¬ ∀ c ∈ cands, ∀ d ∈ cands, c.result = d.result) :
    ((∀ c ∈ cands, c.result.certainty = Certainty.Maybe MaybeCause.Overflow) →
      merge_candidates_and_discard_reservation_impls ctx cands =
        Except.ok (mkCanonicalResponse (Certainty.Maybe MaybeCause.Overflow))) ∧
    ((∃ c ∈ cands, c.result.certainty ≠ Certainty.Maybe MaybeCause.Overflow) →
      merge_candidates_and_discard_reservation_impls ctx cands =
        Except.ok (mkCanonicalResponse Certainty.AMBIGUOUS)) ∧
    mkCanonicalResponse (Certainty.Maybe MaybeCause.Overflow) ≠
      mkCanonicalResponse Certainty.AMBIGUOUS ∧
    (mkCanonicalResponse (Certainty.Maybe MaybeCause.Overflow)).constraints = [] ∧
    (mkCanonicalResponse Certainty.AMBIGUOUS).constraints = [] := by
  have hfalse : allEqual (cands.map Candidate.result) = false := by
    cases h : allEqual (cands.map Candidate.result) with
    | false => rfl
    | true =>
      exfalso
      apply hdiff
      intro c hc d hd
      exact (allEqual_eq_true_iff _).mp h _ (List.mem_map_of_mem _ hc)
        _ (List.mem_map_of_mem _ hd)
  cases cands with
  | nil => simp at hlen
  | cons c1 tail =>
    cases tail with
    | nil => simp at hlen
    | cons c2 rest =>
      refine ⟨?_, ?_, by decide, rfl, rfl⟩
      · intro hover
        have hallov : ((c1 :: c2 :: rest).all
            fun x => x.result.certainty == Certainty.Maybe MaybeCause.Overflow) = true := by
          rw [List.all_eq_true]
          intro x hx
          simp [hover x hx]
        simp only [merge_candidates_and_discard_reservation_impls]
        rw [pruneLoop_id, hfalse, hallov]
        simp
      · intro hex
        have hallov : ((c1 :: c2 :: rest).all
            fun x => x.result.certainty == Certainty.Maybe MaybeCause.Overflow) = false := by
          obtain ⟨c, hc, hcne⟩ := hex
          cases h : (c1 :: c2 :: rest).all
              (fun x => x.result.certainty == Certainty.Maybe MaybeCause.Overflow) with
          | false => rfl
          | true =>
            exfalso
            rw [List.all_eq_true] at h
            exact hcne (by simpa using h c hc)
        simp only [merge_candidates_and_discard_reservation_impls]
        rw [pruneLoop_id, hfalse, hallov]
        simp

/-- Claim C2 witness: a proven response next to an ambiguous one merges to
the synthetic Ambiguous response. -/
theorem merge_differing_responses_witness :
    merge_candidates_and_discard_reservation_impls trivialCtx
      [{ source := CandidateSource.BuiltinImpl, result := respYes },
       { source := CandidateSource.BuiltinImpl, result := respOverflow }] =
      Except.ok (mkCanonicalResponse Certainty.AMBIGUOUS) := by
  have h := merge_differing_responses trivialCtx
    [{ source := CandidateSource.BuiltinImpl, result := respYes },
     { source := CandidateSource.BuiltinImpl, result := respOverflow }]
    (by decide) (by decide)
  exact h.2.1 ⟨{ source := CandidateSource.BuiltinImpl, result := respYes },
    by decide, by decide⟩

/-- Claim C1 counterexample: two candidates share the identical proven
response; the first is a reservation-polarity user impl, yet the merge
returns the proven response undowngraded, not the neutral Ambiguous
response — the downgrade only examines the last-popped candidate (the FIXME
at assembly.rs line 514). -/
theorem reservation_shared_response_counterexample :
    reservationCtx.implPolarity 0 = ImplPolarity.Reservation ∧
    merge_candidates_and_discard_reservation_impls reservationCtx
      [{ source := CandidateSource.Impl 0, result := respYes },
       { source := CandidateSource.BuiltinImpl, result := respYes }] =
      Except.ok respYes ∧
    respYes ≠ mkCanonicalResponse Certainty.AMBIGUOUS :=
  ⟨rfl, rfl, by decide⟩

/-- Claim C1 as amended: the reservation downgrade fires exactly on the
candidate the merge selects — the popped last candidate.  Whenever the
selected candidate of an identical-response list (the sole candidate
included) is a reservation-polarity impl, the merge returns the neutral
Ambiguous response carrying no constraints. -/
theorem reservation_downgrade_on_selected (ctx : EvalCtxt)
    (cands : List Candidate) (hne : cands ≠ []) (d : Nat)
    (hall : ∀ c ∈ cands, ∀ c' ∈ cands, c.result = c'.result)
    (hlast : (cands.getLast hne).source = CandidateSource.Impl d)
    (hpol : ctx.implPolarity d = ImplPolarity.Reservation) :
    merge_candidates_and_discard_reservation_impls ctx cands =
      Except.ok (mkCanonicalResponse Certainty.AMBIGUOUS) := by
  have heq : allEqual (cands.map Candidate.result) = true := by
    rw [allEqual_eq_true_iff]
    intro a ha b hb
    simp only [List.mem_map] at ha hb
    obtain ⟨c, hc, rfl⟩ := ha
    obtain ⟨c', hc', rfl⟩ := hb
    exact hall c hc c' hc'
  rw [merge_of_allEqual ctx cands hne heq]
  unfold discard_reservation_impl
  rw [hlast]
  simp [hpol]

/-- Claim C1 witness for the amended statement: a sole reservation-impl
candidate with a proven response surfaces as the neutral Ambiguous
response. -/
theorem reservation_downgrade_on_selected_witness :
    merge_candidates_and_discard_reservation_impls reservationCtx
      [{ source := CandidateSource.Impl 0, result := respYes }] =
      Except.ok (mkCanonicalResponse Certainty.AMBIGUOUS) :=
  reservation_downgrade_on_selected reservationCtx
    [{ source := CandidateSource.Impl 0, result := respYes }]
    (by decide) 0 (by decide) rfl rfl

/-- Claim C10: the reservation downgrade never modifies a candidate's origin
tag, and returns the candidate completely unchanged unless its origin is a
reservation-polarity user impl — built-in, param-env and alias-bound
candidates, and non-reservation impls, pass through untouched. -/
theorem discard_reservation_frame (ctx : EvalCtxt) (c : Candidate) :
    (discard_reservation_impl ctx c).source = c.source ∧
    (∀ d, c.source = CandidateSource.Impl d →
      ctx.implPolarity d ≠ ImplPolarity.Reservation →
      discard_reservation_impl ctx c = c) ∧
    (c.source = CandidateSource.BuiltinImpl → discard_reservation_impl ctx c = c) ∧
    (∀ n, c.source = CandidateSource.ParamEnv n → discard_reservation_impl ctx c = c) ∧
    (c.source = CandidateSource.AliasBound → discard_reservation_impl ctx c = c) := by
  refine ⟨?_, ?_, ?_, ?_, ?_⟩
  · obtain ⟨src, res⟩ := c
    cases src with
    | Impl d =>
      cases hp : ctx.implPolarity d <;> simp [discard_reservation_impl, hp]
    | BuiltinImpl => rfl
    | ParamEnv n => rfl
    | AliasBound => rfl
  · intro d hd hpol
    refine discard_reservation_noop ctx c fun d' hd' => ?_
    rw [hd] at hd'
    injection hd' with e
    rw [← e]
    exact hpol
  · intro h
    refine discard_reservation_noop ctx c fun d' hd' => ?_
    rw [h] at hd'
    exact CandidateSource.noConfusion hd'
  · intro n h
    refine discard_reservation_noop ctx c fun d' hd' => ?_
    rw [h] at hd'
    exact CandidateSource.noConfusion hd'
  · intro h
    refine discard_reservation_noop ctx c fun d' hd' => ?_
    rw [h] at hd'
    exact CandidateSource.noConfusion hd'

/-- Claim C10 witness: a built-in candidate passes through the downgrade
completely unchanged, origin included. -/
theorem discard_reservation_frame_witness :
    (discard_reservation_impl trivialCtx
      { source := CandidateSource.BuiltinImpl, result := respYes }).source =
      CandidateSource.BuiltinImpl ∧
    discard_reservation_impl trivialCtx
      { source := CandidateSource.BuiltinImpl, result := respYes } =
      { source := CandidateSource.BuiltinImpl, result := respYes } := by
  have h := discard_reservation_frame trivialCtx
    { source := CandidateSource.BuiltinImpl, result := respYes }
  exact ⟨h.1, h.2.2.1 rfl⟩

/-- Claim C3: when the goal's self type is an unresolved inference variable,
assembly short-circuits: none of the six candidate sources runs and exactly
one synthetic candidate is returned, of built-in origin, whose response has
certainty Ambiguous (and no constraints). -/
theorem assemble_ty_var_short_circuit (ctx : EvalCtxt) (fuel : Nat) (goal : Goal)
    (h : goal.selfTy = Ty.Infer InferTy.TyVar) :
    assemble_and_evaluate_candidates ctx fuel goal =
      AssemblyResult.ok
        [{ source := CandidateSource.BuiltinImpl
           result := mkCanonicalResponse Certainty.AMBIGUOUS }] := by
  cases fuel <;>
    simp [assemble_and_evaluate_candidates, assembleStep, tyIsTyVar, h]

/-- Claim C3 witness: a concrete inference-variable goal yields the single
built-in Ambiguous candidate. -/
theorem assemble_ty_var_short_circuit_witness :
    assemble_and_evaluate_candidates trivialCtx 3 tyVarGoal =
      AssemblyResult.ok
        [{ source := CandidateSource.BuiltinImpl
           result := mkCanonicalResponse Certainty.AMBIGUOUS }] :=
  assemble_ty_var_short_circuit trivialCtx 3 tyVarGoal rfl

/-- Claim C8: for a goal whose self type is a non-alias, non-object
structural shape, the alias-bound source and the object-bound source each
contribute zero candidates, as an ordinary no-op rather than an error or a
fatal abort. -/
theorem alias_object_bounds_noop (ctx : EvalCtxt) (goal : Goal)
    (h : isStructuralShape goal.selfTy = true) :
    assemble_alias_bound_candidates ctx goal = AssemblyResult.ok [] ∧
    assemble_object_bound_candidates ctx goal = AssemblyResult.ok [] := by
  obtain ⟨st, td, pe⟩ := goal
  cases st <;> first
    | exact ⟨rfl, rfl⟩
    | simp [isStructuralShape] at h

/-- Claim C8 witness: both sources are no-ops on the primitive Bool. -/
theorem alias_object_bounds_noop_witness :
    assemble_alias_bound_candidates trivialCtx boolGoal = AssemblyResult.ok [] ∧
    assemble_object_bound_candidates trivialCtx boolGoal = AssemblyResult.ok [] :=
  alias_object_bounds_noop trivialCtx boolGoal rfl

/-- Claim C9: the alias-bound and object-bound sources reach their fatal
invariant-violation outcome exactly when the self type is a disallowed
internal-only form (a bound variable, a general inference variable or a
fresh marker); the fatal outcome is a distinct constructor, never equal to
any ordinary candidate-list outcome — so under the precondition that no
disallowed form reaches these sources, the fatal branch is unreachable. -/
theorem alias_object_bounds_fatal_iff (ctx : EvalCtxt) (goal : Goal) :
    (assemble_alias_bound_candidates ctx goal = AssemblyResult.fatal ↔
      isDisallowedShape goal.selfTy = true) ∧
    (assemble_object_bound_candidates ctx goal = AssemblyResult.fatal ↔
      isDisallowedShape goal.selfTy = true) ∧
    ∀ cands : List Candidate, AssemblyResult.fatal ≠ AssemblyResult.ok cands := by
  obtain ⟨st, td, pe⟩ := goal
  refine ⟨?_, ?_, fun cands hc => AssemblyResult.noConfusion hc⟩
  · cases st
    case Infer v =>
      cases v <;> simp [assemble_alias_bound_candidates, isDisallowedShape]
    all_goals simp [assemble_alias_bound_candidates, isDisallowedShape]
  · cases st
    case Infer v =>
      cases v <;> simp [assemble_object_bound_candidates, isDisallowedShape]
    all_goals simp [assemble_object_bound_candidates, isDisallowedShape]

/-- Claim C6: when the normalization pre-pass succeeds, the candidates
assembled for the goal with the normalized self type are a prefix — hence a
subset — of the candidates assembled for the original alias goal, and the
other five sources still run against the original goal and contribute the
remainder. -/
theorem assemble_superset_after_normalization (ctx : EvalCtxt) (fuel : Nat)
    (goal : Goal) (projection_ty : AliasTy) (normalized_ty : Ty)
    (l : List Candidate)
    (hself : goal.selfTy = Ty.Alias AliasKind.Projection projection_ty)
    (hnorm : ctx.normalizeProjection goal projection_ty = some normalized_ty)
    (hrec : assemble_and_evaluate_candidates ctx fuel (goal.withSelfTy normalized_ty) =
      AssemblyResult.ok l) :
    ∃ aliasCands objectCands,
      assemble_alias_bound_candidates ctx goal = AssemblyResult.ok aliasCands ∧
      assemble_object_bound_candidates ctx goal = AssemblyResult.ok objectCands ∧
      assemble_and_evaluate_candidates ctx (fuel + 1) goal =
        AssemblyResult.ok (l ++ assemble_impl_candidates ctx goal
          ++ assemble_builtin_impl_candidates ctx goal
          ++ assemble_param_env_candidates ctx goal
          ++ aliasCands ++ objectCands) ∧
      ∀ c ∈ l, c ∈ l ++ assemble_impl_candidates ctx goal
          ++ assemble_builtin_impl_candidates ctx goal
          ++ assemble_param_env_candidates ctx goal
          ++ aliasCands ++ objectCands := by
  have halias : assemble_alias_bound_candidates ctx goal =
      AssemblyResult.ok
        ((ctx.itemBounds projection_ty.def_id projection_ty.substs).filterMap
          fun assumption =>
            match ctx.considerImpliedClause goal assumption with
            | Except.ok result =>
              some { source := CandidateSource.AliasBound, result := result }
            | Except.error _ => none) := by
    simp only [assemble_alias_bound_candidates, hself]
  have hobj : assemble_object_bound_candidates ctx goal = AssemblyResult.ok [] := by
    simp only [assemble_object_bound_candidates, hself]
  refine ⟨_, _, halias, hobj, ?_, ?_⟩
  · show assembleStep ctx (assemble_and_evaluate_candidates ctx fuel) goal = _
    simp only [assembleStep, assemble_candidates_after_normalizing_self_ty,
      hself, hnorm, tyIsTyVar, hrec, halias, hobj, AssemblyResult.bindCands]
    simp
  · intro c hc
    simp [List.mem_append, hc]

/-- Claim C6 witness: with a normalization oracle rewriting the projection
to Bool and every other collaborator inert, the alias goal's assembly is the
normalized goal's (empty) assembly followed by the other sources' (empty)
contributions. -/
theorem assemble_superset_after_normalization_witness :
    ∃ aliasCands objectCands,
      assemble_alias_bound_candidates normalizingCtx aliasGoal =
        AssemblyResult.ok aliasCands ∧
      assemble_object_bound_candidates normalizingCtx aliasGoal =
        AssemblyResult.ok objectCands ∧
      assemble_and_evaluate_candidates normalizingCtx (0 + 1) aliasGoal =
        AssemblyResult.ok (([] : List Candidate)
          ++ assemble_impl_candidates normalizingCtx aliasGoal
          ++ assemble_builtin_impl_candidates normalizingCtx aliasGoal
          ++ assemble_param_env_candidates normalizingCtx aliasGoal
          ++ aliasCands ++ objectCands) ∧
      ∀ c ∈ ([] : List Candidate),
        c ∈ ([] : List Candidate)
          ++ assemble_impl_candidates normalizingCtx aliasGoal
          ++ assemble_builtin_impl_candidates normalizingCtx aliasGoal
          ++ assemble_param_env_candidates normalizingCtx aliasGoal
          ++ aliasCands ++ objectCands :=
  assemble_superset_after_normalization normalizingCtx 0 aliasGoal
    { def_id := 0, substs := 0 } Ty.Bool [] rfl rfl rfl

end Assembly
